import Mathlib

/-!
Verification of the boa-statement-parser Plaid integration layer.

This file gives a shallow embedding of the `FilePlaidItemStore` class and of the
pure parts of the Plaid gateway functions from `src/plaid/link.ts`, and proves
the specification's testable properties about them.

Modelling decisions:
* The JavaScript `Map<string, PlaidItem>` is modelled as an insertion-ordered
  association list with unique keys; `Map.set` replaces the value in place when
  the key is present and appends otherwise, `Map.delete` removes the entry, and
  `Map.prototype.values` enumerates in insertion order.
* Wall-clock readings (`new Date().toISOString()`) are passed as explicit
  `String` parameters.  ISO-8601 timestamps compare chronologically under the
  lexicographic `String` order, so `<` on these strings is the time order.
* The store file is modelled at two levels.  `Plaid.FileState` covers the
  states exchanged between `save` and the constructor: a missing file, content
  on which `JSON.parse` throws (an empty file included), or a well-formed
  serialization of the entries that `save` wrote — JSON round-tripping of such
  a record object is the identity on its entry list.  Arbitrary file content
  is covered by `Plaid.FileContent` over a small JSON value type: the source's
  `load` performs no validation of a successfully parsed value and feeds
  `Object.entries` of it straight into `new Map`, and `Plaid.loadJson` models
  exactly that, garbage entries included.
-/

namespace Plaid

/-- Modelled from the spec: the `PlaidItem` record shape (its declaration lives
in `src/plaid/types.ts`, which is not part of the excerpt).  Fields follow the
spec's data model and the record literals constructed in `src/cli/index` and
`FilePlaidItemStore`: `syncCursor` and `lastSyncAt` are optional, the rest are
required strings; `status` is a string from the `PlaidItemStatus` union. -/
structure PlaidItem where
  itemId : String
  accessToken : String
  institutionId : String
  institutionName : String
  userId : String
  status : String
  syncCursor : Option String
  lastSyncAt : Option String
  createdAt : String
  updatedAt : String
deriving DecidableEq

/-- Shape of a TypeScript `Partial<PlaidItem>` as consumed by
`FilePlaidItemStore.updateItem`: each field is either absent (`none`) or
supplies a replacement value.  Spreading a property whose value is literally
`undefined` is not modelled; no caller in the repository does that. -/
structure PlaidItemUpdates where
  itemId : Option String
  accessToken : Option String
  institutionId : Option String
  institutionName : Option String
  userId : Option String
  status : Option String
  syncCursor : Option String
  lastSyncAt : Option String
  createdAt : Option String
  updatedAt : Option String
deriving DecidableEq

/-- Empty partial update: `{}`. -/
def noUpdates : PlaidItemUpdates :=
  ⟨none, none, none, none, none, none, none, none, none, none⟩

/-- Entry list standing for the contents of a `Map<string, PlaidItem>`,
in insertion order. -/
abbrev Entries := List (String × PlaidItem)

/-- Lookup of `Map.prototype.get` (for any value type, as JS maps are): the
value of the first (in a real `Map`, only) entry with the given key. -/
def mapGet {α : Type} : List (String × α) → String → Option α
  | [], _ => none
  | e :: rest, k => if e.1 = k then some e.2 else mapGet rest k

/-- Insertion of `Map.prototype.set`: replace the value in place when the key
is present, append a fresh entry otherwise. -/
def mapSet {α : Type} : List (String × α) → String → α → List (String × α)
  | [], k, v => [(k, v)]
  | e :: rest, k, v => if e.1 = k then (k, v) :: rest else e :: mapSet rest k v

/-- Removal of `Map.prototype.delete`. -/
def mapDelete {α : Type} : List (String × α) → String → List (String × α)
  | [], _ => []
  | e :: rest, k => if e.1 = k then mapDelete rest k else e :: mapDelete rest k

/-- Keys of the entry list, in insertion order. -/
def keysOf (l : Entries) : List String := l.map Prod.fst

/-- On-disk state of the store file as exercised by `save` and the round-trip
claim.  `missing` is an absent file (`existsSync` is false), `unparsable` is
content on which `JSON.parse` throws — an empty file or a JSON syntax error —
and `stored entries` is a well-formed serialization as written by
`FilePlaidItemStore.save`.  Content that parses successfully to some other
shape is handled unvalidated by the source and is modelled separately by
`FileContent` and `loadJson`. -/
inductive FileState where
  | missing
  | unparsable
  | stored (entries : Entries)
deriving DecidableEq

/-- In-memory state of a `FilePlaidItemStore` instance: the private
`items : Map<string, PlaidItem>` and the private `filePath`. -/
structure FilePlaidItemStore where
  items : Entries
  filePath : String
deriving DecidableEq

/-- Embedding of `FilePlaidItemStore.load` on the file states of `save`'s
world: a missing file leaves the freshly initialized empty map, a thrown
`JSON.parse` is caught and resets the map to a fresh empty one, and a
well-formed file is read back with `new Map(Object.entries(parsed))`, i.e. by
inserting each parsed entry in order into an empty map. -/
def load : FileState → Entries
  | .missing => []
  | .unparsable => []
  | .stored entries => entries.foldl (fun acc e => mapSet acc e.1 e.2) []

/-- Embedding of `new FilePlaidItemStore(filePath)`: record the path and load
the file. -/
def mkStore (filePath : String) (file : FileState) : FilePlaidItemStore :=
  { items := load file, filePath := filePath }

/-- Store with an empty map, as produced by constructing over a missing file. -/
def emptyStore (filePath : String) : FilePlaidItemStore :=
  { items := [], filePath := filePath }

/-- Minimal model of a parsed JSON value, sufficient to describe what `load`
does with arbitrary successfully parsed file content. -/
inductive JsonValue where
  | null
  | bool (b : Bool)
  | num (n : Int)
  | str (s : String)
  | arr (elements : List JsonValue)
  | obj (fields : List (String × JsonValue))

/-- Behavior of `Object.entries` on a parsed JSON value: it throws on `null`
(modelled as `none`; `load` catches the exception), enumerates index-keyed
elements of an array and index-keyed characters of a string, returns the own
enumerable fields of an object, and yields no entries on the remaining
primitives. -/
def objectEntries : JsonValue → Option (List (String × JsonValue))
  | .null => none
  | .bool _ => some []
  | .num _ => some []
  | .str s =>
      some (s.data.enum.map (fun p => (toString p.1, JsonValue.str (String.mk [p.2]))))
  | .arr elements => some (elements.enum.map (fun p => (toString p.1, p.2)))
  | .obj fields => some fields

/-- Raw outcome of reading the store file, before any assumption on its
shape: the file is absent, `JSON.parse` throws on its content (an empty file
included), or `JSON.parse` succeeds with some JSON value. -/
inductive FileContent where
  | missing
  | unparsable
  | parsed (value : JsonValue)

/-- Embedding of `FilePlaidItemStore.load` over arbitrary file content: a
missing file keeps the empty map, a thrown exception (from `JSON.parse`, or
from `Object.entries` on `null`) is caught and leaves a fresh empty map, and
any other successfully parsed value is fed unvalidated into
`new Map(Object.entries(parsed))` — the source casts the parsed value to
`Record<string, PlaidItem>` without any runtime check, so non-record content
populates the map with garbage entries. -/
def loadJson : FileContent → List (String × JsonValue)
  | .missing => []
  | .unparsable => []
  | .parsed v =>
      match objectEntries v with
      | none => []
      | some entries => entries.foldl (fun acc e => mapSet acc e.1 e.2) []

namespace FilePlaidItemStore

/-- Embedding of `FilePlaidItemStore.save`: the whole in-memory mapping is
serialized (`Object.fromEntries` preserves the map's entries and their order)
and replaces the file's contents. -/
def save (s : FilePlaidItemStore) : FileState :=
  .stored s.items

/-- Embedding of `getItem`: `this.items.get(itemId) ?? null`. -/
def getItem (s : FilePlaidItemStore) (itemId : String) : Option PlaidItem :=
  mapGet s.items itemId

/-- Embedding of `getItemByAccessToken`: first item (in insertion order) whose
`accessToken` matches, else `null`. -/
def getItemByAccessToken (s : FilePlaidItemStore) (accessToken : String) :
    Option PlaidItem :=
  (s.items.find? (fun e => e.2.accessToken == accessToken)).map Prod.snd

/-- Embedding of `getItemsByUserId`: all items with the given `userId`, in
insertion order. -/
def getItemsByUserId (s : FilePlaidItemStore) (userId : String) :
    List PlaidItem :=
  (s.items.filter (fun e => e.2.userId == userId)).map Prod.snd

/-- Embedding of `getAllItems`: `Array.from(this.items.values())`. -/
def getAllItems (s : FilePlaidItemStore) : List PlaidItem :=
  s.items.map Prod.snd

/-- Embedding of `saveItem`: `this.items.set(item.itemId, item)` followed by a
file write (the file mirror is modelled separately by `save`). -/
def saveItem (s : FilePlaidItemStore) (item : PlaidItem) : FilePlaidItemStore :=
  { s with items := mapSet s.items item.itemId item }

/-- Embedding of the spread `{ ...existing, ...updates, updatedAt: now }`
performed by `updateItem`: each field supplied by the partial replaces the
existing one, and `updatedAt` is unconditionally stamped with the current
time. -/
def mergeItem (existing : PlaidItem) (u : PlaidItemUpdates) (now : String) :
    PlaidItem where
  itemId := u.itemId.getD existing.itemId
  accessToken := u.accessToken.getD existing.accessToken
  institutionId := u.institutionId.getD existing.institutionId
  institutionName := u.institutionName.getD existing.institutionName
  userId := u.userId.getD existing.userId
  status := u.status.getD existing.status
  syncCursor := match u.syncCursor with
    | some c => some c
    | none => existing.syncCursor
  lastSyncAt := match u.lastSyncAt with
    | some t => some t
    | none => existing.lastSyncAt
  createdAt := u.createdAt.getD existing.createdAt
  updatedAt := now

/-- Embedding of `updateItem`: look the item up, and only when it exists store
the merged record back under the same key; a missing item leaves the store
untouched (no exception, no file write).  `now` is the wall-clock reading of
the `new Date().toISOString()` inside the method. -/
def updateItem (s : FilePlaidItemStore) (itemId : String)
    (u : PlaidItemUpdates) (now : String) : FilePlaidItemStore :=
  match s.getItem itemId with
  | none => s
  | some existing =>
      { s with items := mapSet s.items itemId (mergeItem existing u now) }

/-- Embedding of `deleteItem`: `this.items.delete(itemId)` followed by a file
write. -/
def deleteItem (s : FilePlaidItemStore) (itemId : String) : FilePlaidItemStore :=
  { s with items := mapDelete s.items itemId }

/-- Embedding of `updateSyncCursor`: delegate to `updateItem` with a partial
carrying the new cursor and a fresh `lastSyncAt`.  `tSync` is the clock
reading taken for `lastSyncAt` and `tUpd` the (possibly later) reading taken
by `updateItem` for `updatedAt`. -/
def updateSyncCursor (s : FilePlaidItemStore) (itemId cursor tSync tUpd : String) :
    FilePlaidItemStore :=
  s.updateItem itemId
    { noUpdates with syncCursor := some cursor, lastSyncAt := some tSync } tUpd

/-- Embedding of `updateStatus`: delegate to `updateItem` with a partial
carrying only the new status. -/
def updateStatus (s : FilePlaidItemStore) (itemId status now : String) :
    FilePlaidItemStore :=
  s.updateItem itemId { noUpdates with status := some status } now

end FilePlaidItemStore

/-- Mutation sequences of the round-trip property: `saveItem` and cursor
updates, as issued by the CLI's link and sync actions. -/
inductive StoreOp where
  | saveOne (item : PlaidItem)
  | cursorUpdate (itemId cursor tSync tUpd : String)
deriving DecidableEq

/-- Apply one mutation to the store. -/
def applyOp (s : FilePlaidItemStore) : StoreOp → FilePlaidItemStore
  | .saveOne item => s.saveItem item
  | .cursorUpdate itemId cursor tSync tUpd =>
      s.updateSyncCursor itemId cursor tSync tUpd

/-- Apply a sequence of mutations in order. -/
def applyOps (s : FilePlaidItemStore) (ops : List StoreOp) : FilePlaidItemStore :=
  ops.foldl applyOp s

/-- Modelled from the spec: the `CreateLinkTokenOptions` shape (declared in
`src/plaid/types.ts`, not in the excerpt), with exactly the fields
`createLinkToken` reads.  The Plaid enum values `Products.Transactions` and
`CountryCode.Us` are their wire strings. -/
structure CreateLinkTokenOptions where
  userId : String
  products : Option (List String)
  countryCodes : Option (List String)
  language : Option String
  webhookUrl : Option String
  redirectUri : Option String
  accessToken : Option String
deriving DecidableEq

/-- Process-wide Plaid configuration, restricted to the two fields
`createLinkToken` reads from `getPlaidConfig()`. -/
structure PlaidConfig where
  webhookUrl : Option String
  redirectUri : Option String
deriving DecidableEq

/-- Request object sent to `client.linkTokenCreate`.  `Option` fields model the
conditional spreads: `none` means the key is absent from the request. -/
structure LinkTokenRequest where
  clientUserId : String
  clientName : String
  products : List String
  countryCodes : List String
  language : String
  webhook : Option String
  redirectUri : Option String
  accessToken : Option String
deriving DecidableEq

/-- Embedding of the pure request construction inside `createLinkToken`.  The
`match` on an option is the `??` operator, and each `if` is one of the
conditional object spreads of the source. -/
def createLinkTokenRequest (options : CreateLinkTokenOptions)
    (config : PlaidConfig) : LinkTokenRequest where
  clientUserId := options.userId
  clientName := "BOA Statement Parser"
  products := options.products.getD ["transactions"]
  countryCodes := options.countryCodes.getD ["US"]
  language := options.language.getD "en"
  webhook :=
    if options.webhookUrl.isSome ∨ config.webhookUrl.isSome then
      match options.webhookUrl with
      | some w => some w
      | none => config.webhookUrl
    else none
  redirectUri :=
    if options.redirectUri.isSome ∨ config.redirectUri.isSome then
      match options.redirectUri with
      | some r => some r
      | none => config.redirectUri
    else none
  accessToken :=
    match options.accessToken with
    | some t => some t
    | none => none

/-- Provider response to `client.itemRemove`, as far as `removeItem` can see
it: the `request_id` field it reads, and an opaque remainder standing for any
other content of the response body (which the function never inspects). -/
structure ItemRemoveResponse where
  requestId : String
  otherContent : String
deriving DecidableEq

/-- Return shape of `removeItem`. -/
structure RemoveItemResult where
  removed : Bool
  requestId : String
deriving DecidableEq

/-- Embedding of the result construction of `removeItem`: once the provider
call returns without throwing, the function answers
`{ removed: true, requestId: response.data.request_id }`. -/
def removeItem (response : ItemRemoveResponse) : RemoveItemResult :=
  { removed := true, requestId := response.requestId }

/-! ### Concrete sample data used by witnesses and counterexamples -/

/-- Sample item, shaped like the record the CLI link action saves. -/
def itemA : PlaidItem where
  itemId := "item-1"
  accessToken := "access-token-a"
  institutionId := "ins_109508"
  institutionName := "Sandbox Bank"
  userId := "user-1"
  status := "active"
  syncCursor := none
  lastSyncAt := some "2024-01-03T00:00:00.000Z"
  createdAt := "2024-01-01T00:00:00.000Z"
  updatedAt := "2024-01-02T00:00:00.000Z"

/-- Same `itemId` as `itemA` but a different `createdAt` and the same
`updatedAt`: re-saving it exhibits a mutation that rewrites `createdAt` and
does not advance `updatedAt`. -/
def itemAltCreated : PlaidItem :=
  { itemA with createdAt := "2024-05-01T00:00:00.000Z" }

/-- Partial update that supplies a fresh `accessToken` for an existing item. -/
def tokenUpdate : PlaidItemUpdates :=
  { noUpdates with accessToken := some "access-token-b" }

/-- Store holding exactly `itemA`. -/
def storeA : FilePlaidItemStore :=
  (emptyStore "plaid-items.json").saveItem itemA

/-- Record produced by applying `tokenUpdate` to `itemA`. -/
def itemTokenSwapped : PlaidItem :=
  FilePlaidItemStore.mergeItem itemA tokenUpdate "2024-03-01T00:00:00.000Z"

/-! ### Lemmas about the map model -/

/-- Looking up the key just set yields the value just set. -/
theorem mapGet_mapSet_self (l : Entries) (k : String) (v : PlaidItem) :
    mapGet (mapSet l k v) k = some v := by
  induction l with
  | nil => simp [mapSet, mapGet]
  | cons e rest ih =>
    by_cases h : e.1 = k
    · simp [mapSet, mapGet, h]
    · simp [mapSet, mapGet, h, ih]

/-- Looking up a key just deleted yields nothing. -/
theorem mapGet_mapDelete_self (l : Entries) (k : String) :
    mapGet (mapDelete l k) k = none := by
  induction l with
  | nil => simp [mapDelete, mapGet]
  | cons e rest ih =>
    by_cases h : e.1 = k
    · simp [mapDelete, h, ih]
    · simp [mapDelete, mapGet, h, ih]

/-- Deletion is idempotent on the entry list. -/
theorem mapDelete_idem (l : Entries) (k : String) :
    mapDelete (mapDelete l k) k = mapDelete l k := by
  induction l with
  | nil => rfl
  | cons e rest ih =>
    by_cases h : e.1 = k
    · simp [mapDelete, h, ih]
    · simp [mapDelete, h, ih]

/-- Keys of the empty entry list. -/
theorem keysOf_nil : keysOf [] = [] := rfl

/-- Keys of a cons cell. -/
theorem keysOf_cons (e : String × PlaidItem) (l : Entries) :
    keysOf (e :: l) = e.1 :: keysOf l := rfl

/-- Keys distribute over append. -/
theorem keysOf_append (l₁ l₂ : Entries) :
    keysOf (l₁ ++ l₂) = keysOf l₁ ++ keysOf l₂ := by
  simp [keysOf]

/-- Membership in the keys after a `mapSet`. -/
theorem mem_keysOf_mapSet (l : Entries) (k : String) (v : PlaidItem)
    (a : String) : a ∈ keysOf (mapSet l k v) ↔ a ∈ keysOf l ∨ a = k := by
  induction l with
  | nil =>
    simp only [mapSet, keysOf_cons, keysOf_nil, List.mem_cons,
      List.not_mem_nil, or_false, false_or]
  | cons e rest ih =>
    by_cases h : e.1 = k
    · subst h
      have hm : mapSet (e :: rest) e.1 v = (e.1, v) :: rest := by
        simp [mapSet]
      simp only [hm, keysOf_cons, List.mem_cons]
      tauto
    · have hm : mapSet (e :: rest) k v = e :: mapSet rest k v := by
        simp [mapSet, h]
      simp only [hm, keysOf_cons, List.mem_cons, ih]
      tauto

/-- `mapSet` preserves distinctness of keys. -/
theorem nodup_keysOf_mapSet (l : Entries) (k : String) (v : PlaidItem)
    (h : (keysOf l).Nodup) : (keysOf (mapSet l k v)).Nodup := by
  induction l with
  | nil => simp [mapSet, keysOf]
  | cons e rest ih =>
    by_cases hek : e.1 = k
    · subst hek
      have hm : mapSet (e :: rest) e.1 v = (e.1, v) :: rest := by
        simp [mapSet]
      rw [hm, keysOf_cons]
      rw [keysOf_cons] at h
      exact h
    · have hm : mapSet (e :: rest) k v = e :: mapSet rest k v := by
        simp [mapSet, hek]
      rw [hm, keysOf_cons, List.nodup_cons]
      rw [keysOf_cons, List.nodup_cons] at h
      refine ⟨?_, ih h.2⟩
      intro hmem
      rcases (mem_keysOf_mapSet rest k v e.1).1 hmem with h1 | h1
      · exact h.1 h1
      · exact hek h1

/-- Setting a fresh key appends the entry at the end. -/
theorem mapSet_eq_append (acc : Entries) (e : String × PlaidItem)
    (h : e.1 ∉ keysOf acc) : mapSet acc e.1 e.2 = acc ++ [e] := by
  induction acc with
  | nil => simp [mapSet]
  | cons a rest ih =>
    rw [keysOf_cons, List.mem_cons] at h
    push_neg at h
    have hne : a.1 ≠ e.1 := fun hh => h.1 hh.symm
    simp [mapSet, hne, ih h.2]

/-- Re-inserting entries with pairwise-distinct keys, in order, into a map
disjoint from them, appends them verbatim. -/
theorem foldl_mapSet_eq_append (l acc : Entries)
    (hnd : (keysOf l).Nodup) (hdis : ∀ a ∈ keysOf l, a ∉ keysOf acc) :
    l.foldl (fun m e => mapSet m e.1 e.2) acc = acc ++ l := by
  induction l generalizing acc with
  | nil => simp
  | cons e rest ih =>
    rw [keysOf_cons, List.nodup_cons] at hnd
    simp only [List.foldl_cons]
    rw [mapSet_eq_append acc e (hdis e.1 (by rw [keysOf_cons]; exact List.mem_cons_self _ _))]
    have hdis' : ∀ a ∈ keysOf rest, a ∉ keysOf (acc ++ [e]) := by
      intro a ha
      rw [keysOf_append, List.mem_append]
      push_neg
      constructor
      · exact hdis a (by rw [keysOf_cons]; exact List.mem_cons_of_mem _ ha)
      · intro hmem
        have haeq : a = e.1 := by
          rw [keysOf_cons, keysOf_nil] at hmem
          simpa using hmem
        exact hnd.1 (haeq ▸ ha)
    rw [ih (acc ++ [e]) hnd.2 hdis']
    simp

/-- Reading back a well-formed file whose entries have distinct keys
reconstructs exactly those entries. -/
theorem load_stored_of_nodup (entries : Entries)
    (h : (keysOf entries).Nodup) : load (.stored entries) = entries := by
  simpa using foldl_mapSet_eq_append entries [] h (by simp [keysOf])

/-- Every mutation preserves distinctness of the stored keys. -/
theorem nodup_keysOf_applyOp (s : FilePlaidItemStore) (op : StoreOp)
    (h : (keysOf s.items).Nodup) : (keysOf (applyOp s op).items).Nodup := by
  cases op with
  | saveOne item =>
    simpa [applyOp, FilePlaidItemStore.saveItem] using
      nodup_keysOf_mapSet s.items item.itemId item h
  | cursorUpdate itemId cursor tSync tUpd =>
    simp only [applyOp, FilePlaidItemStore.updateSyncCursor,
      FilePlaidItemStore.updateItem]
    cases hg : s.getItem itemId with
    | none => simpa using h
    | some existing => simpa using nodup_keysOf_mapSet s.items itemId _ h

/-- Every mutation sequence starting from a store with distinct keys keeps the
keys distinct. -/
theorem nodup_keysOf_applyOps (s : FilePlaidItemStore) (ops : List StoreOp)
    (h : (keysOf s.items).Nodup) : (keysOf (applyOps s ops).items).Nodup := by
  induction ops generalizing s with
  | nil => simpa [applyOps] using h
  | cons op rest ih =>
    simpa [applyOps] using ih (applyOp s op) (nodup_keysOf_applyOp s op h)

/-- Chronological order on ISO-8601 timestamp strings: the lexicographic
order on their character sequences (which, for this fixed-width sortable
format, is the time order). -/
abbrev timeLt (a b : String) : Prop := a.data < b.data

/-- Updating an existing item stores exactly the spread-merged record under
the same key. -/
theorem getItem_updateItem_self (s : FilePlaidItemStore) (id : String)
    (u : PlaidItemUpdates) (now : String) (r : PlaidItem)
    (hr : s.getItem id = some r) :
    (s.updateItem id u now).getItem id
      = some (FilePlaidItemStore.mergeItem r u now) := by
  have hr' : mapGet s.items id = some r := hr
  simp [FilePlaidItemStore.updateItem, FilePlaidItemStore.getItem, hr',
    mapGet_mapSet_self]

/-! ### The claims -/

/-- Claim C1: for every item record saved via the store's `saveItem`, an
immediately following `getItem` with that record's `itemId` returns a record
equal in every field to the record that was saved. -/
theorem claim_C1 (s : FilePlaidItemStore) (item : PlaidItem) :
    (s.saveItem item).getItem item.itemId = some item := by
  simp [FilePlaidItemStore.saveItem, FilePlaidItemStore.getItem,
    mapGet_mapSet_self]

/-- Claim C2: for every sequence of `saveItem` and cursor-update mutations,
serializing the store to its file and constructing a new store from that file
yields a store whose `getAllItems` returns the same item records, field-exact
(here even in the same order). -/
theorem claim_C2 (p q : String) (ops : List StoreOp) :
    (mkStore q (applyOps (emptyStore p) ops).save).getAllItems
      = (applyOps (emptyStore p) ops).getAllItems := by
  have h := nodup_keysOf_applyOps (emptyStore p) ops (by simp [emptyStore, keysOf])
  simp [mkStore, FilePlaidItemStore.save, FilePlaidItemStore.getAllItems,
    load_stored_of_nodup _ h]

/-- Claim C3: for an item present in the store, `updateSyncCursor` followed by
`getItem` returns a record whose `syncCursor` equals the new cursor, whose
`lastSyncAt` is the fresh clock reading — strictly greater than the previous
`lastSyncAt` whenever the clock has advanced past it — and whose `createdAt`
is unchanged. -/
theorem claim_C3 (s : FilePlaidItemStore) (id cursor tSync tUpd prev : String)
    (r : PlaidItem) (hr : s.getItem id = some r)
    (hprev : r.lastSyncAt = some prev) (hclock : timeLt prev tSync) :
    ∃ r', (s.updateSyncCursor id cursor tSync tUpd).getItem id = some r'
      ∧ r'.syncCursor = some cursor
      ∧ (∃ t, r'.lastSyncAt = some t ∧ timeLt prev t)
      ∧ r'.createdAt = r.createdAt := by
  refine ⟨FilePlaidItemStore.mergeItem r
      { noUpdates with syncCursor := some cursor, lastSyncAt := some tSync } tUpd,
    ?_, rfl, ⟨tSync, rfl, hclock⟩, rfl⟩
  simp only [FilePlaidItemStore.updateSyncCursor]
  exact getItem_updateItem_self s id _ tUpd r hr

/-- Witness for C3 on a concrete store, item and clock readings. -/
theorem claim_C3_witness :
    ∃ r', (storeA.updateSyncCursor "item-1" "cursor-1"
        "2024-02-01T00:00:00.000Z" "2024-02-01T00:00:00.100Z").getItem "item-1"
        = some r'
      ∧ r'.syncCursor = some "cursor-1"
      ∧ (∃ t, r'.lastSyncAt = some t ∧ timeLt "2024-01-03T00:00:00.000Z" t)
      ∧ r'.createdAt = itemA.createdAt :=
  claim_C3 storeA "item-1" "cursor-1" "2024-02-01T00:00:00.000Z"
    "2024-02-01T00:00:00.100Z" "2024-01-03T00:00:00.000Z" itemA
    rfl rfl (by decide)

/-- Counterexample to claim C4 as stated: `saveItem` is also a mutating store
operation, yet re-saving an existing `itemId` stores the caller's record
verbatim, so the resulting record's `updatedAt` is not advanced and its
`createdAt` differs from the existing record's. -/
theorem claim_C4_counterexample :
    (storeA.saveItem itemAltCreated).getItem "item-1" = some itemAltCreated
    ∧ itemAltCreated.updatedAt = itemA.updatedAt
    ∧ itemAltCreated.createdAt ≠ itemA.createdAt := by
  refine ⟨rfl, rfl, by decide⟩

/-- Claim C4 (amended): `updateItem`, `updateSyncCursor` and `updateStatus` on
an existing item set `updatedAt` to the current clock reading and, as long as
the partial update does not itself supply `createdAt` (the cursor and status
helpers never do), leave `createdAt` unchanged; `saveItem` is excluded since
it replaces the record wholesale with exactly the caller-supplied fields. -/
theorem claim_C4_amended (s : FilePlaidItemStore)
    (id cursor status tSync tUpd : String) (u : PlaidItemUpdates)
    (r : PlaidItem) (hr : s.getItem id = some r) (hc : u.createdAt = none) :
    (∃ r₁, (s.updateItem id u tUpd).getItem id = some r₁
      ∧ r₁.updatedAt = tUpd ∧ r₁.createdAt = r.createdAt)
    ∧ (∃ r₂, (s.updateSyncCursor id cursor tSync tUpd).getItem id = some r₂
      ∧ r₂.updatedAt = tUpd ∧ r₂.createdAt = r.createdAt)
    ∧ (∃ r₃, (s.updateStatus id status tUpd).getItem id = some r₃
      ∧ r₃.updatedAt = tUpd ∧ r₃.createdAt = r.createdAt) := by
  refine ⟨⟨_, getItem_updateItem_self s id u tUpd r hr, rfl,
      by simp [FilePlaidItemStore.mergeItem, hc]⟩, ?_, ?_⟩
  · simp only [FilePlaidItemStore.updateSyncCursor]
    exact ⟨_, getItem_updateItem_self s id _ tUpd r hr, rfl, rfl⟩
  · simp only [FilePlaidItemStore.updateStatus]
    exact ⟨_, getItem_updateItem_self s id _ tUpd r hr, rfl, rfl⟩

/-- Witness for the amended C4 on a concrete store and update. -/
theorem claim_C4_amended_witness :
    (∃ r₁, (storeA.updateItem "item-1" tokenUpdate
        "2024-04-01T00:00:00.000Z").getItem "item-1" = some r₁
      ∧ r₁.updatedAt = "2024-04-01T00:00:00.000Z" ∧ r₁.createdAt = itemA.createdAt)
    ∧ (∃ r₂, (storeA.updateSyncCursor "item-1" "cursor-1"
        "2024-03-31T00:00:00.000Z" "2024-04-01T00:00:00.000Z").getItem "item-1" = some r₂
      ∧ r₂.updatedAt = "2024-04-01T00:00:00.000Z" ∧ r₂.createdAt = itemA.createdAt)
    ∧ (∃ r₃, (storeA.updateStatus "item-1" "error"
        "2024-04-01T00:00:00.000Z").getItem "item-1" = some r₃
      ∧ r₃.updatedAt = "2024-04-01T00:00:00.000Z" ∧ r₃.createdAt = itemA.createdAt) :=
  claim_C4_amended storeA "item-1" "cursor-1" "error"
    "2024-03-31T00:00:00.000Z" "2024-04-01T00:00:00.000Z" tokenUpdate itemA
    rfl rfl

/-- Counterexample to claim C5 as stated: `updateItem` with a partial that
carries an `accessToken` rebinds the same `itemId` to a different token
without any deletion or re-creation. -/
theorem claim_C5_counterexample :
    (storeA.updateItem "item-1" tokenUpdate
        "2024-03-01T00:00:00.000Z").getItem "item-1" = some itemTokenSwapped
    ∧ itemTokenSwapped.itemId = itemA.itemId
    ∧ itemTokenSwapped.accessToken ≠ itemA.accessToken := by
  refine ⟨getItem_updateItem_self storeA "item-1" tokenUpdate
    "2024-03-01T00:00:00.000Z" itemA rfl, rfl, by decide⟩

/-- Claim C5 (amended): an item's `accessToken` is preserved by every store
operation that does not itself supply a token for that `itemId` — in
particular by `updateSyncCursor`, `updateStatus` and any `updateItem` whose
partial omits `accessToken`; it can be changed without deletion by
`updateItem` supplying a token or by `saveItem` replacing the whole record. -/
theorem claim_C5_amended (s : FilePlaidItemStore)
    (id cursor status tSync tUpd : String) (u : PlaidItemUpdates)
    (r : PlaidItem) (hr : s.getItem id = some r) (ha : u.accessToken = none) :
    (∃ r₁, (s.updateItem id u tUpd).getItem id = some r₁
      ∧ r₁.accessToken = r.accessToken)
    ∧ (∃ r₂, (s.updateSyncCursor id cursor tSync tUpd).getItem id = some r₂
      ∧ r₂.accessToken = r.accessToken)
    ∧ (∃ r₃, (s.updateStatus id status tUpd).getItem id = some r₃
      ∧ r₃.accessToken = r.accessToken) := by
  refine ⟨⟨_, getItem_updateItem_self s id u tUpd r hr,
      by simp [FilePlaidItemStore.mergeItem, ha]⟩, ?_, ?_⟩
  · simp only [FilePlaidItemStore.updateSyncCursor]
    exact ⟨_, getItem_updateItem_self s id _ tUpd r hr, rfl⟩
  · simp only [FilePlaidItemStore.updateStatus]
    exact ⟨_, getItem_updateItem_self s id _ tUpd r hr, rfl⟩

/-- Witness for the amended C5 on a concrete store. -/
theorem claim_C5_amended_witness :
    (∃ r₁, (storeA.updateItem "item-1" noUpdates
        "2024-04-02T00:00:00.000Z").getItem "item-1" = some r₁
      ∧ r₁.accessToken = itemA.accessToken)
    ∧ (∃ r₂, (storeA.updateSyncCursor "item-1" "cursor-2"
        "2024-04-02T00:00:00.000Z" "2024-04-02T00:00:00.000Z").getItem "item-1" = some r₂
      ∧ r₂.accessToken = itemA.accessToken)
    ∧ (∃ r₃, (storeA.updateStatus "item-1" "error"
        "2024-04-02T00:00:00.000Z").getItem "item-1" = some r₃
      ∧ r₃.accessToken = itemA.accessToken) :=
  claim_C5_amended storeA "item-1" "cursor-2" "error"
    "2024-04-02T00:00:00.000Z" "2024-04-02T00:00:00.000Z" noUpdates itemA
    rfl rfl

/-- Claim C6: for every `itemId` not present in the store, `updateItem` is an
error-free no-op that leaves the store unchanged, and hence so are
`updateSyncCursor` and `updateStatus` on a missing item. -/
theorem claim_C6 (s : FilePlaidItemStore)
    (id cursor status tSync tUpd : String) (u : PlaidItemUpdates)
    (h : s.getItem id = none) :
    s.updateItem id u tUpd = s
    ∧ s.updateSyncCursor id cursor tSync tUpd = s
    ∧ s.updateStatus id status tUpd = s := by
  refine ⟨?_, ?_, ?_⟩ <;>
    simp [FilePlaidItemStore.updateItem, FilePlaidItemStore.updateSyncCursor,
      FilePlaidItemStore.updateStatus, h]

/-- Witness for C6 on the empty store. -/
theorem claim_C6_witness :
    (emptyStore "sp").updateItem "missing-id" noUpdates "2024-01-01T00:00:00.000Z"
        = emptyStore "sp"
    ∧ (emptyStore "sp").updateSyncCursor "missing-id" "cursor-1"
        "2024-01-01T00:00:00.000Z" "2024-01-01T00:00:00.000Z" = emptyStore "sp"
    ∧ (emptyStore "sp").updateStatus "missing-id" "error"
        "2024-01-01T00:00:00.000Z" = emptyStore "sp" :=
  claim_C6 (emptyStore "sp") "missing-id" "cursor-1" "error"
    "2024-01-01T00:00:00.000Z" "2024-01-01T00:00:00.000Z" noUpdates rfl

/-- Counterexample to claim C7 as stated: the file content `{"a":1}` is
malformed — it is not a record of items — yet `JSON.parse` succeeds on it, so
the catch that resets the map never fires and the constructed store holds one
garbage entry rather than zero items. -/
theorem claim_C7_counterexample :
    loadJson (.parsed (.obj [("a", .num 1)])) = [("a", JsonValue.num 1)]
    ∧ (loadJson (.parsed (.obj [("a", .num 1)]))).length = 1 :=
  ⟨rfl, rfl⟩

/-- Claim C7 (amended): constructing a store over a file that is missing, or
whose content makes `JSON.parse` throw (an empty file included), or that
parses to JSON `null` (`Object.entries` then throws and the exception is
caught), completes normally — the embedding is total — and the resulting
store contains zero items; content parsing to any other non-item-record value
is loaded unvalidated and can leave the store nonempty. -/
theorem claim_C7_amended (p : String) :
    (mkStore p .missing).getAllItems = []
    ∧ (mkStore p .unparsable).getAllItems = []
    ∧ loadJson .missing = []
    ∧ loadJson .unparsable = []
    ∧ loadJson (.parsed .null) = [] :=
  ⟨rfl, rfl, rfl, rfl, rfl⟩

/-- Claim C8: `deleteItem` followed by `getItem` on the same id returns
absent, and deleting the same id a second time is error-free and leaves the
store in exactly the state a single delete produced. -/
theorem claim_C8 (s : FilePlaidItemStore) (id : String) :
    (s.deleteItem id).getItem id = none
    ∧ (s.deleteItem id).deleteItem id = s.deleteItem id := by
  constructor
  · simp [FilePlaidItemStore.getItem, FilePlaidItemStore.deleteItem,
      mapGet_mapDelete_self]
  · simp [FilePlaidItemStore.deleteItem, mapDelete_idem]

/-- Claim C9: the link-token request defaults to products `[transactions]`,
countries `[US]` and language `"en"` when the options omit them, and carries
`webhook`/`redirect_uri` exactly when the call-site option or the
process-wide configuration supplies them, the call-site value taking
precedence. -/
theorem claim_C9 (o : CreateLinkTokenOptions) (cfg : PlaidConfig) :
    (o.products = none → (createLinkTokenRequest o cfg).products = ["transactions"])
    ∧ (o.countryCodes = none → (createLinkTokenRequest o cfg).countryCodes = ["US"])
    ∧ (o.language = none → (createLinkTokenRequest o cfg).language = "en")
    ∧ ((createLinkTokenRequest o cfg).webhook.isSome
        ↔ o.webhookUrl.isSome ∨ cfg.webhookUrl.isSome)
    ∧ (∀ w, o.webhookUrl = some w → (createLinkTokenRequest o cfg).webhook = some w)
    ∧ (o.webhookUrl = none → (createLinkTokenRequest o cfg).webhook = cfg.webhookUrl)
    ∧ ((createLinkTokenRequest o cfg).redirectUri.isSome
        ↔ o.redirectUri.isSome ∨ cfg.redirectUri.isSome)
    ∧ (∀ r, o.redirectUri = some r → (createLinkTokenRequest o cfg).redirectUri = some r)
    ∧ (o.redirectUri = none → (createLinkTokenRequest o cfg).redirectUri = cfg.redirectUri) := by
  refine ⟨fun h => by simp [createLinkTokenRequest, h],
    fun h => by simp [createLinkTokenRequest, h],
    fun h => by simp [createLinkTokenRequest, h], ?_, ?_, ?_, ?_, ?_, ?_⟩
  · cases ho : o.webhookUrl <;> cases hc : cfg.webhookUrl <;>
      simp [createLinkTokenRequest, ho, hc]
  · intro w hw
    simp [createLinkTokenRequest, hw]
  · intro h
    cases hc : cfg.webhookUrl <;> simp [createLinkTokenRequest, h, hc]
  · cases ho : o.redirectUri <;> cases hc : cfg.redirectUri <;>
      simp [createLinkTokenRequest, ho, hc]
  · intro r hr
    simp [createLinkTokenRequest, hr]
  · intro h
    cases hc : cfg.redirectUri <;> simp [createLinkTokenRequest, h, hc]

/-- Options supplying only a call-site webhook, for the C9 witness. -/
def optionsW : CreateLinkTokenOptions :=
  ⟨"user-1", none, none, none, some "https://example.com/hook", none, none⟩

/-- Configuration supplying its own webhook and redirect, for the C9 witness. -/
def configW : PlaidConfig :=
  ⟨some "https://config.example.com/hook", some "https://config.example.com/redirect"⟩

/-- Witness for C9: with `optionsW` and `configW` the defaults apply, the
call-site webhook wins over the configured one, and the configured redirect is
used because the call site supplies none. -/
theorem claim_C9_witness :
    (createLinkTokenRequest optionsW configW).products = ["transactions"]
    ∧ (createLinkTokenRequest optionsW configW).webhook = some "https://example.com/hook"
    ∧ (createLinkTokenRequest optionsW configW).redirectUri
        = some "https://config.example.com/redirect" :=
  ⟨(claim_C9 optionsW configW).1 rfl,
    (claim_C9 optionsW configW).2.2.2.2.1 "https://example.com/hook" rfl,
    (claim_C9 optionsW configW).2.2.2.2.2.2.2.2 rfl⟩

/-- Claim C10: whenever the provider's item-remove call completes without
throwing, `removeItem` answers `removed = true` unconditionally, and its
result depends on nothing in the provider response but the request id. -/
theorem claim_C10 (resp other : ItemRemoveResponse)
    (h : resp.requestId = other.requestId) :
    (removeItem resp).removed = true
    ∧ (removeItem resp).requestId = resp.requestId
    ∧ removeItem resp = removeItem other := by
  simp [removeItem, h]

/-- Witness for C10 on two responses agreeing only on the request id. -/
theorem claim_C10_witness :
    (removeItem ⟨"req-1", "other-a"⟩).removed = true
    ∧ (removeItem ⟨"req-1", "other-a"⟩).requestId = "req-1"
    ∧ removeItem ⟨"req-1", "other-a"⟩ = removeItem ⟨"req-1", "other-b"⟩ :=
  claim_C10 ⟨"req-1", "other-a"⟩ ⟨"req-1", "other-b"⟩ rfl

end Plaid
